import Mathlib

/-!
Verification development for the ByteBite food-ordering application
(`src/app.py`).  The domain model — menu catalog, cart, order ledger,
recommendation engine and CSV exporter — is shallowly embedded below.
Money values are modelled as exact rationals; Python dictionaries
(`st.session_state.cart`, the popularity tally) are modelled as
insertion-ordered association lists, matching Python's dict semantics;
`sorted(..., key=..., reverse=True)` is modelled by a stable insertion
sort with the corresponding "greater count first" relation.
-/

/- ## Decimal number rendering (models Python `str` on numbers) -/

/-- Character for a single decimal digit. -/
def digitChar : Nat → Char
  | 0 => '0'
  | 1 => '1'
  | 2 => '2'
  | 3 => '3'
  | 4 => '4'
  | 5 => '5'
  | 6 => '6'
  | 7 => '7'
  | 8 => '8'
  | 9 => '9'
  | _ => '*'

/-- Value of a decimal digit character, computed from its code point. -/
def digitVal (c : Char) : Option Nat :=
  if '0' ≤ c ∧ c ≤ '9' then some (c.toNat - 48) else none

/-- Little-endian decimal digits of `n`, with explicit fuel so that the
definition is structurally recursive; with fuel at least `n` this agrees with
`Nat.digits 10 n`. -/
def natDigitsRev : Nat → Nat → List Nat
  | _, 0 => []
  | 0, _ + 1 => []
  | fuel + 1, n + 1 => (n + 1) % 10 :: natDigitsRev fuel ((n + 1) / 10)

/-- Decimal rendering of a natural number as a character list (models `str(n)`). -/
def natToStrL (n : Nat) : List Char :=
  if n = 0 then ['0'] else ((natDigitsRev n n).map digitChar).reverse

/-- Parse a list of digit characters into the digit values (most significant first). -/
def parseDigits : List Char → Option (List Nat)
  | [] => some []
  | c :: l =>
    match digitVal c, parseDigits l with
    | some d, some ds => some (d :: ds)
    | _, _ => none

/-- Parse a non-empty digit string into a natural number. -/
def parseNatL (l : List Char) : Option Nat :=
  if l.isEmpty then none
  else (parseDigits l).map (fun ds => Nat.ofDigits 10 ds.reverse)

/-- Little-endian list of the `e` low decimal digits of `m`. -/
def padDigits (e m : Nat) : List Nat :=
  (List.range e).map (fun i => m / 10 ^ i % 10)

/-- Values that have an exact decimal representation (within float precision);
Python floats printed by `str` always do. -/
def IsDecimal (q : ℚ) : Prop :=
  ∃ e < 18, (10 : ℤ) ^ e * q.num % (q.den : ℤ) = 0

/-- Number of decimal digits `str(float)` prints for `q` (smallest exponent
making `q·10^e` integral, capped at float precision). -/
def decExp (q : ℚ) : Nat :=
  (((List.range 18).find? (fun e => (10 : ℤ) ^ e * q.num % (q.den : ℤ) == 0)).getD 17)

/-- Decimal rendering of a rational, modelling Python `str` on a float:
minimal digits, but always at least one fractional digit (`str(140.0) = "140.0"`). -/
def floatStr (q : ℚ) : String :=
  let e := max (decExp q) 1
  let n := (10 : ℤ) ^ e * q.num / (q.den : ℤ)
  let ip := n.natAbs / 10 ^ e
  let fp := n.natAbs % 10 ^ e
  String.mk ((if n < 0 then ['-'] else []) ++
    natToStrL ip ++ '.' :: ((padDigits e fp).map digitChar).reverse)

/-- Test that a character is not the decimal point. -/
def notDot (c : Char) : Bool := c != '.'

/-- Parse a (non-negative) decimal string `"<int>.<frac>"` back into a
rational, splitting at the first decimal point. -/
def parseDec (s : String) : Option ℚ :=
  match s.data.dropWhile notDot with
  | [] => none
  | _ :: fp =>
    match parseNatL (s.data.takeWhile notDot), parseNatL fp with
    | some a, some b => some ((a : ℚ) + (b : ℚ) / (10 : ℚ) ^ fp.length)
    | _, _ => none

/-- Modelled from the spec: the "two decimal places" rendering the spec
prescribes for the CSV total column (the application renders currency this
way elsewhere, e.g. in the admin metrics, but not in `export_csv`). -/
def twoDecStr (q : ℚ) : String :=
  String.mk (natToStrL (((10 : ℤ) ^ 2 * q.num / (q.den : ℤ)).natAbs / 10 ^ 2) ++
    '.' :: ((padDigits 2 (((10 : ℤ) ^ 2 * q.num / (q.den : ℤ)).natAbs % 10 ^ 2)).map
      digitChar).reverse)

/- ## Data model (classes `MenuItem` and `OrderHistory` of `src/app.py`) -/

/-- A menu item in the restaurant (`MenuItem` in `src/app.py`). -/
structure MenuItem where
  food_id : Nat
  name : String
  price : ℚ
  rating : ℚ := 4
  image_data : Option (List Nat) := none
  category : String := "Main Course"
  tags : List String := []
deriving DecidableEq

/-- A placed customer order (`OrderHistory` in `src/app.py`). -/
structure OrderHistory where
  order_id : Nat
  customer_name : String
  items : List (MenuItem × Nat)
  total_amount : ℚ
  date : String
  is_teacher : Bool
deriving DecidableEq

/-- The application session state (`st.session_state` fields of the domain
model).  `popular_cache_clears` counts the explicit invalidations of the
popularity cache (`RecommendationEngine.get_popular_items.clear()` calls). -/
structure AppState where
  menu_items : List MenuItem
  orders : List OrderHistory
  order_index : Nat
  cart : List (Nat × Nat)
  popular_cache_clears : Nat
deriving DecidableEq

/- ## Cart operations (inline handlers in `display_menu_item`) -/

/-- Quantity stored in the cart for a food id (`st.session_state.cart.get(food_id, 0)`). -/
def cart_get (cart : List (Nat × Nat)) (food_id : Nat) : Nat :=
  (((cart.find? (fun e => e.1 == food_id)).map (fun e => e.2)).getD 0)

/-- Dictionary store `cart[food_id] = qty`, keeping Python's dict key order. -/
def cart_set (cart : List (Nat × Nat)) (food_id qty : Nat) : List (Nat × Nat) :=
  if cart.any (fun e => e.1 == food_id) then
    cart.map (fun e => if e.1 == food_id then (food_id, qty) else e)
  else
    cart ++ [(food_id, qty)]

/-- Dictionary removal `cart.pop(food_id, None)`. -/
def cart_pop (cart : List (Nat × Nat)) (food_id : Nat) : List (Nat × Nat) :=
  cart.filter (fun e => e.1 != food_id)

/-- The `+` button: `cart[food_id] = current_qty + 1`. -/
def cart_increment (cart : List (Nat × Nat)) (food_id : Nat) : List (Nat × Nat) :=
  cart_set cart food_id (cart_get cart food_id + 1)

/-- The `−` button: decrement if the quantity exceeds 1, otherwise remove the entry. -/
def cart_decrement (cart : List (Nat × Nat)) (food_id : Nat) : List (Nat × Nat) :=
  if 1 < cart_get cart food_id then cart_set cart food_id (cart_get cart food_id - 1)
  else cart_pop cart food_id

/- ## Order placement and the ledger (`place_order`, order deletion, metrics) -/

/-- Resolution of the cart against the catalog: the loop in `place_order`
(and `display_cart_summary`) that drops entries whose id no longer resolves. -/
def items_ordered (menu : List MenuItem) (cart : List (Nat × Nat)) :
    List (MenuItem × Nat) :=
  cart.filterMap (fun e => (menu.find? (fun m => m.food_id == e.1)).map (fun m => (m, e.2)))

/-- Total of a resolved cart: `total += item.price * qty`. -/
def order_total (items : List (MenuItem × Nat)) : ℚ :=
  (items.map (fun iq => iq.1.price * (iq.2 : ℚ))).sum

/-- The `place_order` function of `src/app.py`: resolve the cart, and if any
line item survives, append a new order, bump the order counter, clear the
cart and invalidate the popularity cache; otherwise do nothing. -/
def place_order (s : AppState) (customer_name : String) (is_teacher : Bool)
    (order_date : String) : AppState × Option OrderHistory :=
  let ordered := items_ordered s.menu_items s.cart
  if ordered.isEmpty then (s, none)
  else
    let o : OrderHistory :=
      { order_id := s.order_index
        customer_name := customer_name
        items := ordered
        total_amount := order_total ordered
        date := order_date
        is_teacher := is_teacher }
    ({ s with
        orders := s.orders ++ [o]
        order_index := s.order_index + 1
        cart := []
        popular_cache_clears := s.popular_cache_clears + 1 }, some o)

/-- Order deletion in `show_order_management`: `st.session_state.orders.remove(order)`. -/
def delete_order (s : AppState) (order_id : Nat) : AppState :=
  { s with orders := s.orders.eraseP (fun o => o.order_id == order_id) }

/-- The admin-dashboard metrics of `show_admin_panel`: order count, revenue
(sum of totals) and average order value (`revenue / len(orders) if orders else 0`). -/
def metrics (orders : List OrderHistory) : Nat × ℚ × ℚ :=
  let revenue := (orders.map (fun o => o.total_amount)).sum
  let average := if orders.isEmpty then 0 else revenue / (orders.length : ℚ)
  (orders.length, revenue, average)

/- ## Menu management (`show_menu_management`) -/

/-- Greatest food id currently in the catalog (`max([...], default=0)`). -/
def max_food_id (menu : List MenuItem) : Nat :=
  (menu.map (fun m => m.food_id)).foldl max 0

/-- The "Add Dish" handler: requires a non-blank name and a positive price,
assigns id `max existing + 1` and appends; otherwise the catalog is unchanged. -/
def add_menu_item (s : AppState) (name : String) (price rating : ℚ)
    (image_data : Option (List Nat)) (category : String) : AppState × Option MenuItem :=
  if name ≠ "" ∧ 0 < price then
    let new_item : MenuItem :=
      { food_id := max_food_id s.menu_items + 1
        name := name
        price := price
        rating := rating
        image_data := image_data
        category := category
        tags := [] }
    ({ s with menu_items := s.menu_items ++ [new_item] }, some new_item)
  else (s, none)

/-- The "Delete" handler of menu management: removes the (first) catalog item
with the given id; orders are untouched. -/
def remove_menu_item (s : AppState) (food_id : Nat) : AppState :=
  { s with menu_items := s.menu_items.eraseP (fun m => m.food_id == food_id) }

/- ## Recommendation engine (`RecommendationEngine.get_popular_items`) -/

/-- One update of the `item_counts` dictionary:
`item_counts[item.food_id] = item_counts.get(item.food_id, 0) + qty`. -/
def tally_insert (counts : List (Nat × Nat)) (food_id qty : Nat) : List (Nat × Nat) :=
  if counts.any (fun e => e.1 == food_id) then
    counts.map (fun e => if e.1 == food_id then (e.1, e.2 + qty) else e)
  else counts ++ [(food_id, qty)]

/-- Cumulative per-item quantities over the whole order history, in
first-encounter (dict insertion) order. -/
def item_counts (orders : List OrderHistory) : List (Nat × Nat) :=
  orders.foldl
    (fun acc o => o.items.foldl (fun acc2 iq => tally_insert acc2 iq.1.food_id iq.2) acc) []

/-- Comparison used by `sorted(item_counts.items(), key=lambda x: x[1], reverse=True)`:
larger cumulative count first. -/
def count_ge (a b : Nat × Nat) : Prop := b.2 ≤ a.2

instance : DecidableRel count_ge := fun a b => inferInstanceAs (Decidable (b.2 ≤ a.2))

instance : IsTotal (Nat × Nat) count_ge :=
  ⟨fun a b => Nat.le_total b.2 a.2⟩

instance : IsTrans (Nat × Nat) count_ge :=
  ⟨fun _ _ _ h1 h2 => Nat.le_trans h2 h1⟩

/-- The tally sorted by descending cumulative quantity (stable, as Python's
`sorted` is). -/
def sorted_item_counts (orders : List OrderHistory) : List (Nat × Nat) :=
  List.insertionSort count_ge (item_counts orders)

/-- `popular_ids` of `get_popular_items`: top `limit` (id, count) pairs. -/
def popular_ids (orders : List OrderHistory) (limit : Nat) : List (Nat × Nat) :=
  (sorted_item_counts orders).take limit

/-- `RecommendationEngine.get_popular_items`: with no tallied orders, the first
`limit` catalog items; otherwise the catalog items whose id appears among the
top `limit` ids, kept in catalog order by the list comprehension. -/
def get_popular_items (menu_items : List MenuItem) (orders : List OrderHistory)
    (limit : Nat := 3) : List MenuItem :=
  if (item_counts orders).isEmpty then menu_items.take limit
  else
    menu_items.filter (fun item => (popular_ids orders limit).any (fun p => p.1 == item.food_id))

/- ## CSV export (`export_csv`) -/

/-- The item list cell: `"; ".join(f"{i.name}x{q}" for ...)`. -/
def items_str (o : OrderHistory) : String :=
  String.intercalate "; " (o.items.map (fun iq => iq.1.name ++ "x" ++ String.mk (natToStrL iq.2)))

/-- Customer-type cell. -/
def teacher_str (is_teacher : Bool) : String :=
  if is_teacher then "Teacher" else "Student"

/-- CSV field quoting as performed by the `pandas` writer: fields containing a
comma, quote or newline are wrapped in quotes with inner quotes doubled. -/
def csv_escape (s : String) : String :=
  if s.data.any (fun c => c = ',' ∨ c = '"' ∨ c = '\n') then
    "\"" ++ String.mk (s.data.flatMap (fun c => if c = '"' then ['"', '"'] else [c])) ++ "\""
  else s

/-- The six cells of one order's CSV row, in column order. -/
def csv_fields (o : OrderHistory) : List String :=
  [String.mk (natToStrL o.order_id), o.customer_name, teacher_str o.is_teacher,
   items_str o, floatStr o.total_amount, o.date]

/-- The CSV header row. -/
def csv_header : String := "Order ID,Customer,Type,Items,Total,Date"

/-- The lines of the exported CSV: header plus one row per order. -/
def export_csv_lines (orders : List OrderHistory) : List String :=
  csv_header :: orders.map (fun o => String.intercalate "," ((csv_fields o).map csv_escape))

/-- The exported CSV text (rows newline-terminated, as `pandas.to_csv` emits). -/
def export_csv (orders : List OrderHistory) : String :=
  String.intercalate "\n" (export_csv_lines orders) ++ "\n"

/- ## Operation sequences -/

/-- A user interaction with the cart. -/
inductive CartOp where
  | inc (food_id : Nat)
  | dec (food_id : Nat)
deriving DecidableEq

/-- Apply one cart interaction. -/
def apply_cart_op (cart : List (Nat × Nat)) : CartOp → List (Nat × Nat)
  | CartOp.inc fid => cart_increment cart fid
  | CartOp.dec fid => cart_decrement cart fid

/-- Run a sequence of cart interactions. -/
def run_cart (cart : List (Nat × Nat)) (ops : List CartOp) : List (Nat × Nat) :=
  ops.foldl apply_cart_op cart

/-- A ledger-level interaction: build a cart and place it, or delete an order. -/
inductive LedgerOp where
  | place (cart : List (Nat × Nat)) (customer_name : String) (is_teacher : Bool)
      (order_date : String)
  | del (order_id : Nat)

/-- Apply one ledger interaction, reporting the id of a newly placed order. -/
def apply_ledger_op (s : AppState) : LedgerOp → AppState × Option Nat
  | LedgerOp.place cart c t d =>
    let r := place_order { s with cart := cart } c t d
    (r.1, r.2.map (fun o => o.order_id))
  | LedgerOp.del oid => (delete_order s oid, none)

/-- Run a sequence of ledger interactions, collecting the assigned order ids. -/
def run_ledger (s : AppState) : List LedgerOp → AppState × List Nat
  | [] => (s, [])
  | op :: ops =>
    let r := apply_ledger_op s op
    let rest := run_ledger r.1 ops
    (rest.1, r.2.toList ++ rest.2)

/- ## Concrete states -/

/-- The Burger item of the default menu / the §8 scenario. -/
def burger_item : MenuItem :=
  { food_id := 1, name := "Burger", price := mkRat 7023 100, rating := mkRat 45 10,
    category := "Main Course", tags := ["popular", "non-veg"] }

/-- The Coffee item of the default menu / the §8 scenario. -/
def coffee_item : MenuItem :=
  { food_id := 2, name := "Coffee", price := mkRat 702 10, rating := 4,
    category := "Beverage", tags := ["popular", "hot"] }

/-- The scenario catalog: Burger(id 1, 70.23) and Coffee(id 2, 70.20),
fresh ledger, counter at 1, empty cart. -/
def scenario_state : AppState :=
  { menu_items := [burger_item, coffee_item], orders := [], order_index := 1,
    cart := [], popular_cache_clears := 0 }

/-- The default catalog of `load_default_menu` (image files are absent in a
fresh checkout, so `image_data` is `None` throughout). -/
def load_default_menu : List MenuItem :=
  [ burger_item, coffee_item,
    { food_id := 3, name := "Pizza", price := mkRat 23726 100, rating := mkRat 47 10,
      category := "Main Course", tags := ["popular", "vegetarian"] },
    { food_id := 4, name := "Pasta", price := 150, rating := mkRat 43 10,
      category := "Main Course", tags := ["vegetarian"] },
    { food_id := 5, name := "Sandwich", price := mkRat 805 10, rating := mkRat 42 10,
      category := "Main Course", tags := ["vegetarian"] },
    { food_id := 6, name := "Fries", price := 60, rating := 4,
      category := "Side Dish", tags := ["popular", "vegetarian"] },
    { food_id := 7, name := "Salad", price := 90, rating := mkRat 44 10,
      category := "Side Dish", tags := ["vegetarian", "healthy"] },
    { food_id := 8, name := "Ice Cream", price := 50, rating := mkRat 46 10,
      category := "Dessert", tags := ["popular", "sweet"] } ]

/-- The session state right after `initialize_session_state` on a fresh
session: default menu, no orders, order counter 1, empty cart. -/
def init_state : AppState :=
  { menu_items := load_default_menu, orders := [], order_index := 1,
    cart := [], popular_cache_clears := 0 }

/-- Cumulative quantity tallied for a given food id over the order history. -/
def cum_qty (orders : List OrderHistory) (food_id : Nat) : Nat :=
  (((item_counts orders).find? (fun p => p.1 == food_id)).map (fun p => p.2)).getD 0

/-- A concrete order whose total 70.20 exposes the float rendering. -/
def c5_order : OrderHistory :=
  { order_id := 7, customer_name := "Cara", items := [(coffee_item, 1)],
    total_amount := mkRat 702 10, date := "06-01-2025 09:30", is_teacher := true }

/-- A session whose cart holds only an id (9) that resolves against nothing. -/
def orphan_state : AppState :=
  { menu_items := [coffee_item], orders := [], order_index := 1,
    cart := [(9, 1)], popular_cache_clears := 0 }

/-- A one-item catalog used to replay id assignment after a removal. -/
def c4_state0 : AppState :=
  { menu_items := [burger_item], orders := [], order_index := 1,
    cart := [], popular_cache_clears := 0 }

/-- One historical order: five Coffee and one Burger. -/
def c1_orders : List OrderHistory :=
  [{ order_id := 1, customer_name := "Ava", items := [(coffee_item, 5), (burger_item, 1)],
     total_amount := mkRat 42123 100, date := "05-01-2025 12:00", is_teacher := false }]

/-- Scenario state with the Burger-times-two cart. -/
def c2_state1 : AppState := { scenario_state with cart := [(1, 2)] }

/-- The order captured by placing the Burger-times-two cart. -/
def c2_order : OrderHistory :=
  { order_id := 1, customer_name := "Alice", items := [(burger_item, 2)],
    total_amount := order_total [(burger_item, 2)], date := "T0", is_teacher := false }

/-- State after placing Order #1 and then deleting Burger from the catalog. -/
def c2_after : AppState := remove_menu_item (place_order c2_state1 "Alice" false "T0").1 1

/-- The cart built by the §8 scenario clicks: item 1 twice, then item 2 once. -/
def c7_cart : List (Nat × Nat) := run_cart [] [CartOp.inc 1, CartOp.inc 1, CartOp.inc 2]

/-- Scenario state carrying the built cart. -/
def c7_state1 : AppState := { scenario_state with cart := c7_cart }

/-- The first scenario order as `place_order` constructs it. -/
def c7_o1 : OrderHistory :=
  { order_id := 1, customer_name := "Alice",
    items := items_ordered c7_state1.menu_items c7_state1.cart,
    total_amount := order_total (items_ordered c7_state1.menu_items c7_state1.cart),
    date := "T1", is_teacher := false }

/-- State after the first placement, with a fresh cart holding only item 2. -/
def c7_state2 : AppState :=
  { (place_order c7_state1 "Alice" false "T1").1 with cart := [(2, 1)] }

/-- The second scenario order as `place_order` constructs it. -/
def c7_o2 : OrderHistory :=
  { order_id := 2, customer_name := "Alice",
    items := items_ordered c7_state2.menu_items c7_state2.cart,
    total_amount := order_total (items_ordered c7_state2.menu_items c7_state2.cart),
    date := "T2", is_teacher := false }

/- ## Helper lemmas -/

/-- A placement whose resolved cart is empty leaves the state untouched and
returns no order. -/
lemma place_order_of_empty (s : AppState) (c : String) (t : Bool) (d : String)
    (h : items_ordered s.menu_items s.cart = []) :
    place_order s c t d = (s, none) := by
  unfold place_order
  simp [h]

/-- A placement whose resolved cart is non-empty appends the captured order,
bumps the counter, clears the cart and invalidates the popularity cache. -/
lemma place_order_of_resolved (s : AppState) (c : String) (t : Bool) (d : String)
    (h : (items_ordered s.menu_items s.cart).isEmpty = false) :
    place_order s c t d =
      ({ s with
          orders := s.orders ++
            [{ order_id := s.order_index, customer_name := c,
               items := items_ordered s.menu_items s.cart,
               total_amount := order_total (items_ordered s.menu_items s.cart),
               date := d, is_teacher := t }],
          order_index := s.order_index + 1, cart := [],
          popular_cache_clears := s.popular_cache_clears + 1 },
        some { order_id := s.order_index, customer_name := c,
               items := items_ordered s.menu_items s.cart,
               total_amount := order_total (items_ordered s.menu_items s.cart),
               date := d, is_teacher := t }) := by
  unfold place_order
  simp [h]

/- ## Claim theorems -/

/-- C3: calling `place_order` when the cart's snapshot against the catalog is
empty fails — no order is created (the failure the spec classifies as
ValidationError) — and the ledger length is unchanged. -/
theorem C3_place_empty_snapshot_fails (s : AppState) (c : String) (t : Bool) (d : String)
    (h : items_ordered s.menu_items s.cart = []) :
    (place_order s c t d).2 = none ∧
    (place_order s c t d).1.orders.length = s.orders.length := by
  rw [place_order_of_empty s c t d h]
  exact ⟨rfl, rfl⟩

/-- Witness for C3: the scenario state has an empty cart, so its snapshot is
empty and placement fails without touching the ledger. -/
theorem C3_witness :
    items_ordered scenario_state.menu_items scenario_state.cart = [] ∧
    (place_order scenario_state "Bob" false "d1").2 = none ∧
    (place_order scenario_state "Bob" false "d1").1.orders.length =
      scenario_state.orders.length :=
  ⟨by decide,
   (C3_place_empty_snapshot_fails scenario_state "Bob" false "d1" (by decide)).1,
   (C3_place_empty_snapshot_fails scenario_state "Bob" false "d1" (by decide)).2⟩

/-- C8: `metrics` returns the order count, the revenue as the sum of all
order totals, and the average as revenue divided by count — except that the
empty ledger yields average 0 instead of dividing by zero, so
`metrics [] = (0, 0, 0)`. -/
theorem C8_metrics_shape (orders : List OrderHistory) :
    metrics orders =
      (orders.length, (orders.map (fun o => o.total_amount)).sum,
        if orders.length = 0 then 0
        else (orders.map (fun o => o.total_amount)).sum / (orders.length : ℚ)) ∧
    metrics [] = (0, 0, 0) := by
  refine ⟨?_, rfl⟩
  cases orders with
  | nil => simp [metrics]
  | cons o l => simp [metrics]

/-- C10: a placement none of whose cart entries resolve against the catalog is
atomic — the whole application state (ledger, order counter, cart including
orphaned entries, popularity-cache clear count) is returned unchanged and no
order is produced. -/
theorem C10_failed_placement_atomic (s : AppState) (c : String) (t : Bool) (d : String)
    (h : items_ordered s.menu_items s.cart = []) :
    place_order s c t d = (s, none) :=
  place_order_of_empty s c t d h

/-- Witness for C10: a cart holding only the orphaned id 9 resolves to nothing
and the failed placement returns the state unchanged, orphaned entry included. -/
theorem C10_witness :
    items_ordered orphan_state.menu_items orphan_state.cart = [] ∧
    place_order orphan_state "Ann" false "d2" = (orphan_state, none) :=
  ⟨by decide, C10_failed_placement_atomic orphan_state "Ann" false "d2" (by decide)⟩

/-- Every entry of `cart_set c fid q` is either the written pair or an entry of `c`. -/
lemma cart_set_entry_mem {c : List (Nat × Nat)} {fid q : Nat} {p : Nat × Nat}
    (hp : p ∈ cart_set c fid q) : p = (fid, q) ∨ p ∈ c := by
  unfold cart_set at hp
  split at hp
  · obtain ⟨e, he, hpe⟩ := List.mem_map.1 hp
    by_cases h : (e.1 == fid) = true
    · rw [if_pos h] at hpe
      exact Or.inl hpe.symm
    · rw [if_neg h] at hpe
      exact Or.inr (hpe ▸ he)
  · rcases List.mem_append.1 hp with h | h
    · exact Or.inr h
    · exact Or.inl (List.mem_singleton.1 h)

/-- Reading back the key just written into the cart dictionary. -/
lemma cart_get_cart_set (c : List (Nat × Nat)) (fid q : Nat) :
    cart_get (cart_set c fid q) fid = q := by
  unfold cart_set
  split
  · next hany =>
    induction c with
    | nil => simp at hany
    | cons e c ih =>
      by_cases he : (e.1 == fid) = true
      · simp only [List.map_cons, if_pos he]
        simp [cart_get]
      · simp only [List.any_cons, he, Bool.false_or] at hany
        simp only [List.map_cons, if_neg he]
        unfold cart_get at ih ⊢
        simpa [List.find?_cons, he] using ih hany
  · next hany =>
    induction c with
    | nil => simp [cart_get]
    | cons e c ih =>
      simp only [List.any_cons, Bool.or_eq_true, not_or] at hany
      have he : (e.1 == fid) = false := by
        cases h : (e.1 == fid) with
        | false => rfl
        | true => exact absurd h hany.1
      unfold cart_get at ih ⊢
      simpa [List.find?_cons, he] using ih (by simpa using hany.2)

/-- Starting from a cart whose stored quantities are all positive, any
sequence of `+`/`−` clicks keeps every stored quantity positive. -/
lemma run_cart_pos (ops : List CartOp) :
    ∀ c : List (Nat × Nat), (∀ p ∈ c, 0 < p.2) → ∀ p ∈ run_cart c ops, 0 < p.2 := by
  induction ops with
  | nil => intro c hc p hp; exact hc p hp
  | cons op ops ih =>
    intro c hc
    have hstep : ∀ p ∈ apply_cart_op c op, 0 < p.2 := by
      intro p hp
      cases op with
      | inc fid =>
        replace hp : p ∈ cart_set c fid (cart_get c fid + 1) := hp
        rcases cart_set_entry_mem hp with h | hmem
        · rw [h]
          exact Nat.succ_pos _
        · exact hc p hmem
      | dec fid =>
        replace hp :
            p ∈ (if 1 < cart_get c fid then cart_set c fid (cart_get c fid - 1)
                 else cart_pop c fid) := hp
        by_cases h1 : 1 < cart_get c fid
        · rw [if_pos h1] at hp
          rcases cart_set_entry_mem hp with h | hmem
          · rw [h]
            omega
          · exact hc p hmem
        · rw [if_neg h1] at hp
          exact hc p (List.mem_of_mem_filter hp)
    exact ih (apply_cart_op c op) hstep

/-- C9: across every sequence of `+`/`−` clicks from the empty cart, every
stored quantity is strictly positive (no zero entry is ever present); the `−`
click at quantity 1 removes the entry entirely, and at quantity above 1 it
lowers the quantity by exactly 1. -/
theorem C9_cart_quantity_invariant :
    (∀ (ops : List CartOp) (p : Nat × Nat), p ∈ run_cart [] ops → 0 < p.2) ∧
    (∀ (c : List (Nat × Nat)) (fid : Nat), cart_get c fid = 1 →
      ∀ p ∈ cart_decrement c fid, p.1 ≠ fid) ∧
    (∀ (c : List (Nat × Nat)) (fid : Nat), 1 < cart_get c fid →
      cart_get (cart_decrement c fid) fid = cart_get c fid - 1) := by
  refine ⟨?_, ?_, ?_⟩
  · intro ops p hp
    exact run_cart_pos ops [] (by simp) p hp
  · intro c fid h p hp
    unfold cart_decrement at hp
    rw [h] at hp
    rw [if_neg (by omega)] at hp
    have := List.of_mem_filter hp
    simpa using this
  · intro c fid h
    unfold cart_decrement
    rw [if_pos h]
    exact cart_get_cart_set c fid (cart_get c fid - 1)

/-- Witness for C9 at concrete carts: an entry produced by one increment is
positive; decrementing a quantity-1 entry leaves no entry with that key;
decrementing a quantity-3 entry yields quantity 2. -/
theorem C9_witness :
    (0 < ((1 : Nat), (1 : Nat)).2) ∧
    (∀ p ∈ cart_decrement [(5, 1)] 5, p.1 ≠ 5) ∧
    cart_get (cart_decrement [(5, 3)] 5) 5 = cart_get [(5, 3)] 5 - 1 :=
  ⟨C9_cart_quantity_invariant.1 [CartOp.inc 1] (1, 1) (by decide),
   C9_cart_quantity_invariant.2.1 [(5, 1)] 5 (by decide),
   C9_cart_quantity_invariant.2.2 [(5, 3)] 5 (by decide)⟩

/-- The ids handed out along any interaction sequence form the contiguous
range starting at the current counter, and the counter advances by exactly
the number of successful placements. -/
lemma run_ledger_trace (ops : List LedgerOp) :
    ∀ s : AppState, ∃ k,
      (run_ledger s ops).2 = List.range' s.order_index k ∧
      (run_ledger s ops).1.order_index = s.order_index + k := by
  induction ops with
  | nil => intro s; exact ⟨0, rfl, rfl⟩
  | cons op ops ih =>
    intro s
    cases op with
    | del oid =>
      obtain ⟨k, h1, h2⟩ := ih (delete_order s oid)
      exact ⟨k, by simpa [run_ledger, apply_ledger_op] using h1,
        by simpa [run_ledger, apply_ledger_op] using h2⟩
    | place cart c t d =>
      obtain ⟨k, h1, h2⟩ := ih (place_order { s with cart := cart } c t d).1
      have hsplit2 : (run_ledger s (LedgerOp.place cart c t d :: ops)).2 =
          ((place_order { s with cart := cart } c t d).2.map (fun o => o.order_id)).toList ++
            (run_ledger (place_order { s with cart := cart } c t d).1 ops).2 := rfl
      have hsplit1 : (run_ledger s (LedgerOp.place cart c t d :: ops)).1 =
          (run_ledger (place_order { s with cart := cart } c t d).1 ops).1 := rfl
      by_cases hemp : items_ordered s.menu_items cart = []
      · have hplace : place_order { s with cart := cart } c t d =
            ({ s with cart := cart }, none) :=
          place_order_of_empty _ c t d hemp
        have hsnd : ((place_order { s with cart := cart } c t d).2.map
            (fun o => o.order_id)).toList = [] := by rw [hplace]; rfl
        have hidx : (place_order { s with cart := cart } c t d).1.order_index =
            s.order_index := by rw [hplace]
        refine ⟨k, ?_, ?_⟩
        · rw [hsplit2, hsnd, h1, hidx]
          rfl
        · rw [hsplit1, h2, hidx]
      · have hne : (items_ordered s.menu_items cart).isEmpty = false := by
          simpa [List.isEmpty_iff] using hemp
        have hplace := place_order_of_resolved { s with cart := cart } c t d hne
        have hsnd : ((place_order { s with cart := cart } c t d).2.map
            (fun o => o.order_id)).toList = [s.order_index] := by rw [hplace]; rfl
        have hidx : (place_order { s with cart := cart } c t d).1.order_index =
            s.order_index + 1 := by rw [hplace]
        refine ⟨k + 1, ?_, ?_⟩
        · rw [hsplit2, hsnd, h1, hidx]
          rfl
        · rw [hsplit1, h2, hidx]
          omega

/-- C6: from a fresh session, the order ids assigned along any sequence of
placements and deletions are exactly `1, 2, …, k` for `k` successful
placements — strictly increasing, starting at 1, stepping by 1, and never
reused even after deletions. -/
theorem C6_order_ids_strictly_increasing (ops : List LedgerOp) :
    ∃ k, (run_ledger init_state ops).2 = List.range' 1 k ∧
      List.Sorted (fun a b => a < b) (run_ledger init_state ops).2 ∧
      (run_ledger init_state ops).2.Nodup := by
  obtain ⟨k, h1, _⟩ := run_ledger_trace ops init_state
  have hs : init_state.order_index = 1 := rfl
  rw [hs] at h1
  refine ⟨k, h1, ?_, ?_⟩
  · rw [h1]
    exact List.pairwise_lt_range' 1 k
  · rw [h1]
    exact (List.pairwise_lt_range' 1 k).imp (fun h => Nat.ne_of_lt h)

/-- The running maximum bounds the seed and every element of the list. -/
lemma foldl_max_bounds (l : List Nat) :
    ∀ a : Nat, a ≤ l.foldl max a ∧ ∀ x ∈ l, x ≤ l.foldl max a := by
  induction l with
  | nil => intro a; exact ⟨Nat.le_refl a, by simp⟩
  | cons b l ih =>
    intro a
    refine ⟨Nat.le_trans (Nat.le_max_left a b) (ih (max a b)).1, ?_⟩
    intro x hx
    rcases List.mem_cons.1 hx with rfl | hx
    · exact Nat.le_trans (Nat.le_max_right a x) (ih (max a x)).1
    · exact (ih (max a b)).2 x hx

/-- Every current catalog id is at most `max_food_id`. -/
lemma mem_le_max_food_id {menu : List MenuItem} {m : MenuItem} (hm : m ∈ menu) :
    m.food_id ≤ max_food_id menu := by
  unfold max_food_id
  exact (foldl_max_bounds (menu.map (fun m => m.food_id)) 0).2 m.food_id
    (List.mem_map_of_mem _ hm)

/-- C4 (amended): `add_menu_item` demands a positive price (otherwise it fails
and the state is unchanged), assigns the identifier `max current id + 1`,
which is strictly greater than every identifier currently in the catalog, and
appends the item, preserving distinctness of the ids currently present.
Lifetime uniqueness does not hold: after removing the top item, its id can be
assigned again (see the counterexample). -/
theorem C4_add_assigns_max_plus_one (s : AppState) (name : String) (price rating : ℚ)
    (img : Option (List Nat)) (cat : String) :
    (price ≤ 0 → add_menu_item s name price rating img cat = (s, none)) ∧
    (name ≠ "" → 0 < price →
      (add_menu_item s name price rating img cat).2 =
        some { food_id := max_food_id s.menu_items + 1, name := name, price := price,
               rating := rating, image_data := img, category := cat, tags := [] } ∧
      (add_menu_item s name price rating img cat).1.menu_items =
        s.menu_items ++ [{ food_id := max_food_id s.menu_items + 1, name := name,
                           price := price, rating := rating, image_data := img,
                           category := cat, tags := [] }] ∧
      (∀ m ∈ s.menu_items, m.food_id < max_food_id s.menu_items + 1) ∧
      ((s.menu_items.map (fun m => m.food_id)).Nodup →
        ((add_menu_item s name price rating img cat).1.menu_items.map
          (fun m => m.food_id)).Nodup)) := by
  constructor
  · intro hle
    unfold add_menu_item
    rw [if_neg]
    intro h
    exact absurd h.2 (not_lt.2 hle)
  · intro hname hpos
    have hcond : name ≠ "" ∧ 0 < price := ⟨hname, hpos⟩
    refine ⟨?_, ?_, ?_, ?_⟩
    · unfold add_menu_item
      rw [if_pos hcond]
    · unfold add_menu_item
      rw [if_pos hcond]
    · intro m hm
      exact Nat.lt_succ_of_le (mem_le_max_food_id hm)
    · intro hnd
      unfold add_menu_item
      rw [if_pos hcond]
      simp only [List.map_append, List.map_cons, List.map_nil]
      rw [List.nodup_append]
      refine ⟨hnd, List.nodup_singleton _, ?_⟩
      intro a ha hb
      have ha' : a ≤ max_food_id s.menu_items := by
        obtain ⟨m, hm, rfl⟩ := List.mem_map.1 ha
        exact mem_le_max_food_id hm
      have hb' : a = max_food_id s.menu_items + 1 := by simpa using hb
      omega

/-- Witness for C4 at the one-item catalog: a non-positive price is rejected,
and a valid addition gets id 2 appended after Burger. -/
theorem C4_witness :
    add_menu_item c4_state0 "Tea" (-1) 4 none "Beverage" = (c4_state0, none) ∧
    (add_menu_item c4_state0 "Tea" 5 4 none "Beverage").2 =
      some { food_id := 2, name := "Tea", price := 5, rating := 4,
             image_data := none, category := "Beverage", tags := [] } :=
  ⟨(C4_add_assigns_max_plus_one c4_state0 "Tea" (-1) 4 none "Beverage").1 (by norm_num),
   ((C4_add_assigns_max_plus_one c4_state0 "Tea" 5 4 none "Beverage").2
      (by decide) (by norm_num)).1⟩

/-- Counterexample for C4 as stated: the identifier 2 is assigned to "Tea",
the item is removed again, and the very next addition ("Juice") receives the
same identifier 2 — an id is reassigned after its bearer's removal, so ids are
not unique across the catalog's lifetime. -/
theorem C4_counterexample :
    ((add_menu_item c4_state0 "Tea" 5 4 none "Beverage").2.map (fun m => m.food_id) =
      some 2) ∧
    ((add_menu_item
        (remove_menu_item (add_menu_item c4_state0 "Tea" 5 4 none "Beverage").1 2)
        "Juice" 5 4 none "Beverage").2.map (fun m => m.food_id) = some 2) := by
  constructor
  · have h := ((C4_add_assigns_max_plus_one c4_state0 "Tea" 5 4 none "Beverage").2
      (by decide) (by norm_num)).1
    rw [h]
    rfl
  · have h := ((C4_add_assigns_max_plus_one c4_state0 "Tea" 5 4 none "Beverage").2
      (by decide) (by norm_num)).2.1
    have hmenu : (remove_menu_item (add_menu_item c4_state0 "Tea" 5 4 none "Beverage").1
        2).menu_items = [burger_item] := by
      unfold remove_menu_item
      rw [h]
      rfl
    have h2 := ((C4_add_assigns_max_plus_one
        (remove_menu_item (add_menu_item c4_state0 "Tea" 5 4 none "Beverage").1 2)
        "Juice" 5 4 none "Beverage").2 (by decide) (by norm_num)).1
    rw [h2, hmenu]
    rfl

/-- C7: replay of the §8 scenario.  Two increments of item 1 and one of item 2
build the cart [(1,2),(2,1)]; its snapshot is [(Burger,2),(Coffee,1)] with
subtotal exactly 210.66; placing it yields Order id 1 with total 210.66 and
two line items; placing a fresh cart holding only item 2 yields Order id 2,
a ledger of length 2, and metrics count 2 with revenue 280.86. -/
theorem C7_scenario :
    c7_cart = [(1, 2), (2, 1)] ∧
    items_ordered scenario_state.menu_items c7_cart =
      [(burger_item, 2), (coffee_item, 1)] ∧
    order_total [(burger_item, 2), (coffee_item, 1)] = mkRat 21066 100 ∧
    place_order c7_state1 "Alice" false "T1" =
      ({ menu_items := [burger_item, coffee_item], orders := [c7_o1], order_index := 2,
         cart := [], popular_cache_clears := 1 }, some c7_o1) ∧
    c7_o1.order_id = 1 ∧ c7_o1.total_amount = mkRat 21066 100 ∧
    c7_o1.items.length = 2 ∧
    place_order c7_state2 "Alice" false "T2" =
      ({ menu_items := [burger_item, coffee_item], orders := [c7_o1, c7_o2],
         order_index := 3, cart := [], popular_cache_clears := 2 }, some c7_o2) ∧
    c7_o2.order_id = 2 ∧
    (place_order c7_state2 "Alice" false "T2").1.orders.length = 2 ∧
    (metrics (place_order c7_state2 "Alice" false "T2").1.orders).1 = 2 ∧
    (metrics (place_order c7_state2 "Alice" false "T2").1.orders).2.1 =
      mkRat 28086 100 := by
  have hio1 : items_ordered c7_state1.menu_items c7_state1.cart =
      [(burger_item, 2), (coffee_item, 1)] := by decide
  have hio2 : items_ordered c7_state2.menu_items c7_state2.cart =
      [(coffee_item, 1)] := by decide
  have htot1 : order_total [(burger_item, 2), (coffee_item, 1)] = mkRat 21066 100 := by
    unfold order_total burger_item coffee_item
    push_cast [Rat.mkRat_eq_div]
    norm_num
  have htot2 : order_total [(coffee_item, 1)] = mkRat 702 10 := by
    unfold order_total coffee_item
    push_cast [Rat.mkRat_eq_div]
    norm_num
  have ho1tot : c7_o1.total_amount = mkRat 21066 100 := by
    show order_total (items_ordered c7_state1.menu_items c7_state1.cart) = _
    rw [hio1, htot1]
  have ho2tot : c7_o2.total_amount = mkRat 702 10 := by
    show order_total (items_ordered c7_state2.menu_items c7_state2.cart) = _
    rw [hio2, htot2]
  have hp1 : place_order c7_state1 "Alice" false "T1" =
      ({ menu_items := [burger_item, coffee_item], orders := [c7_o1], order_index := 2,
         cart := [], popular_cache_clears := 1 }, some c7_o1) := by
    rw [place_order_of_resolved c7_state1 "Alice" false "T1" (by decide)]
    rfl
  have hp2 : place_order c7_state2 "Alice" false "T2" =
      ({ menu_items := [burger_item, coffee_item], orders := [c7_o1, c7_o2],
         order_index := 3, cart := [], popular_cache_clears := 2 }, some c7_o2) := by
    rw [place_order_of_resolved c7_state2 "Alice" false "T2" (by decide)]
    rfl
  refine ⟨by decide, by decide, htot1, hp1, rfl, ho1tot, by decide, hp2, rfl, ?_, ?_, ?_⟩
  · rw [hp2]
    rfl
  · rw [hp2]
    rfl
  · rw [hp2]
    show (metrics [c7_o1, c7_o2]).2.1 = mkRat 28086 100
    unfold metrics
    simp only [List.map_cons, List.map_nil, List.sum_cons, List.sum_nil]
    rw [ho1tot, ho2tot]
    push_cast [Rat.mkRat_eq_div]
    norm_num

/-- C2: deleting a catalog item never mutates the order ledger — for every
state the orders list is exactly unchanged by `remove_menu_item`; in the §8
scenario, removing Burger after Order #1 was placed leaves the catalog as
[Coffee] while Order #1 still carries the captured (Burger, 2) line, the
"Burgerx2" report cell and the total 140.46 exactly as at placement time. -/
theorem C2_catalog_deletion_preserves_orders :
    (∀ (s : AppState) (fid : Nat), (remove_menu_item s fid).orders = s.orders) ∧
    c2_after.menu_items = [coffee_item] ∧
    c2_after.orders = [c2_order] ∧
    c2_order.items.map (fun iq => (iq.1.name, iq.2)) = [("Burger", 2)] ∧
    items_str c2_order = "Burgerx2" ∧
    c2_order.total_amount = mkRat 14046 100 := by
  have hio : items_ordered c2_state1.menu_items c2_state1.cart = [(burger_item, 2)] := by
    decide
  have h1 := place_order_of_resolved c2_state1 "Alice" false "T0" (by decide)
  rw [hio] at h1
  refine ⟨fun s fid => rfl, ?_, ?_, by decide, by decide, ?_⟩
  · show (remove_menu_item (place_order c2_state1 "Alice" false "T0").1 1).menu_items = _
    rw [h1]
    rfl
  · show (remove_menu_item (place_order c2_state1 "Alice" false "T0").1 1).orders = _
    rw [h1]
    rfl
  · show order_total [(burger_item, 2)] = mkRat 14046 100
    unfold order_total burger_item
    push_cast [Rat.mkRat_eq_div]
    norm_num

/-- C1 (amended): `get_popular_items` tallies cumulative per-item quantity
over all historical orders; with an empty ledger it returns exactly the first
`limit` catalog items; otherwise it keeps exactly the catalog items whose id
ranks in the top `limit` of the tally sorted stably by descending quantity —
but the kept items are returned in catalog order (as a sublist of the
catalog), not in descending order of quantity; for a duplicate-free catalog
at most `limit` items are returned. -/
theorem C1_popular_items_catalog_order (menu : List MenuItem) (orders : List OrderHistory)
    (limit : Nat) (hids : (menu.map (fun m => m.food_id)).Nodup) :
    (orders = [] → get_popular_items menu orders limit = menu.take limit) ∧
    List.Sublist (get_popular_items menu orders limit) menu ∧
    (get_popular_items menu orders limit).length ≤ limit ∧
    List.Perm (sorted_item_counts orders) (item_counts orders) ∧
    List.Sorted count_ge (sorted_item_counts orders) ∧
    (item_counts orders ≠ [] →
      get_popular_items menu orders limit =
        menu.filter (fun item =>
          (popular_ids orders limit).any (fun p => p.1 == item.food_id))) := by
  refine ⟨?_, ?_, ?_, ?_, ?_, ?_⟩
  · intro h
    rw [h]
    rfl
  · unfold get_popular_items
    split
    · exact List.take_sublist limit menu
    · exact List.filter_sublist menu
  · unfold get_popular_items
    split
    · rw [List.length_take]
      exact min_le_left _ _
    · have hsub : ((menu.filter (fun item =>
          (popular_ids orders limit).any (fun p => p.1 == item.food_id))).map
            (fun m => m.food_id)) ⊆ (popular_ids orders limit).map Prod.fst := by
        intro x hx
        obtain ⟨m, hm, rfl⟩ := List.mem_map.1 hx
        have hpm := List.of_mem_filter hm
        obtain ⟨pr, hpr, hpr2⟩ := List.any_eq_true.1 hpm
        have hpr1 : pr.1 = m.food_id := by simpa using hpr2
        exact hpr1 ▸ List.mem_map_of_mem Prod.fst hpr
      have hnd : ((menu.filter (fun item =>
          (popular_ids orders limit).any (fun p => p.1 == item.food_id))).map
            (fun m => m.food_id)).Nodup :=
        List.Nodup.sublist (List.Sublist.map _ (List.filter_sublist menu)) hids
      have hlen := (hnd.subperm hsub).length_le
      rw [List.length_map, List.length_map] at hlen
      refine le_trans hlen ?_
      unfold popular_ids
      rw [List.length_take]
      exact min_le_left _ _
  · exact List.perm_insertionSort count_ge (item_counts orders)
  · exact List.sorted_insertionSort count_ge (item_counts orders)
  · intro h
    have hne : (item_counts orders).isEmpty = false := by
      simpa [List.isEmpty_iff] using h
    unfold get_popular_items
    rw [hne]
    simp

/-- Witness for C1 with the two-item catalog: with an empty ledger the first
item is returned, and with the `c1_orders` history at most 3 items come back. -/
theorem C1_witness :
    get_popular_items [burger_item, coffee_item] [] 1 =
      List.take 1 [burger_item, coffee_item] ∧
    (get_popular_items [burger_item, coffee_item] c1_orders 3).length ≤ 3 :=
  ⟨(C1_popular_items_catalog_order [burger_item, coffee_item] [] 1 (by decide)).1 rfl,
   (C1_popular_items_catalog_order [burger_item, coffee_item] c1_orders 3
      (by decide)).2.2.1⟩

/-- Counterexample for C1 as stated: with five Coffee and one Burger on
record, `get_popular_items` returns [Burger, Coffee] — the item with
cumulative quantity 1 ahead of the item with cumulative quantity 5 — because
the final list comprehension keeps catalog order; the output is not ranked in
descending order of cumulative quantity. -/
theorem C1_counterexample :
    get_popular_items [burger_item, coffee_item] c1_orders 3 =
      [burger_item, coffee_item] ∧
    cum_qty c1_orders burger_item.food_id = 1 ∧
    cum_qty c1_orders coffee_item.food_id = 5 := by decide

/-- With enough fuel, `natDigitsRev` computes the base-10 digits. -/
lemma natDigitsRev_eq (fuel : Nat) :
    ∀ n : Nat, n ≤ fuel → natDigitsRev fuel n = Nat.digits 10 n := by
  induction fuel with
  | zero =>
    intro n h
    have : n = 0 := Nat.le_zero.1 h
    subst this
    simp [natDigitsRev]
  | succ fuel ih =>
    intro n h
    cases n with
    | zero => simp [natDigitsRev]
    | succ m =>
      have hdiv : (m + 1) / 10 ≤ fuel := by
        have := Nat.div_lt_self (Nat.succ_pos m) (by norm_num : (1 : Nat) < 10)
        omega
      rw [natDigitsRev, ih ((m + 1) / 10) hdiv,
        Nat.digits_def' (by norm_num : (1 : Nat) < 10) (Nat.succ_pos m)]

/-- Digit characters decode back to their digit. -/
lemma digitVal_digitChar : ∀ d < 10, digitVal (digitChar d) = some d := by decide

/-- Decoding the encoding of a list of digits. -/
lemma parseDigits_map (ds : List Nat) (h : ∀ d ∈ ds, d < 10) :
    parseDigits (ds.map digitChar) = some ds := by
  induction ds with
  | nil => rfl
  | cons d ds ih =>
    have hd : digitVal (digitChar d) = some d := digitVal_digitChar d (h d (by simp))
    rw [List.map_cons, parseDigits, hd, ih (fun x hx => h x (by simp [hx]))]

/-- Round trip for the natural-number rendering. -/
lemma parseNatL_natToStrL (n : Nat) : parseNatL (natToStrL n) = some n := by
  by_cases h : n = 0
  · subst h
    rfl
  · unfold natToStrL
    rw [if_neg h, natDigitsRev_eq n n (Nat.le_refl n)]
    unfold parseNatL
    rw [if_neg (by
      simp [List.isEmpty_iff, Nat.digits_ne_nil_iff_ne_zero, h])]
    rw [← List.map_reverse,
      parseDigits_map _ (fun d hd =>
        Nat.digits_lt_base (by norm_num) (List.mem_reverse.1 hd))]
    simp [Nat.ofDigits_digits]

/-- All padded digits are below 10. -/
lemma padDigits_lt (e m : Nat) : ∀ d ∈ padDigits e m, d < 10 := by
  intro d hd
  obtain ⟨i, _, rfl⟩ := List.mem_map.1 hd
  exact Nat.mod_lt _ (by norm_num)

/-- Value of the little-endian digit padding. -/
lemma ofDigits_padDigits (e : Nat) : ∀ m : Nat, Nat.ofDigits 10 (padDigits e m) = m % 10 ^ e := by
  induction e with
  | zero => intro m; simp [padDigits, Nat.mod_one]
  | succ e ih =>
    intro m
    have hcomp : ((fun i => m / 10 ^ i % 10) ∘ Nat.succ) = (fun i => m / 10 / 10 ^ i % 10) := by
      funext i
      show m / 10 ^ (i + 1) % 10 = m / 10 / 10 ^ i % 10
      rw [Nat.div_div_eq_div_mul, pow_succ']
    rw [padDigits, List.range_succ_eq_map, List.map_cons, List.map_map, hcomp,
      Nat.ofDigits_cons]
    rw [show List.map (fun i => m / 10 / 10 ^ i % 10) (List.range e) = padDigits e (m / 10)
      from rfl]
    rw [ih (m / 10), pow_zero, Nat.div_one, pow_succ', Nat.mod_mul]

/-- Round trip for the fractional-part rendering. -/
lemma parseNatL_pad (e m : Nat) (he : 1 ≤ e) :
    parseNatL (((padDigits e m).map digitChar).reverse) = some (m % 10 ^ e) := by
  unfold parseNatL
  rw [if_neg (by
    simp only [List.isEmpty_iff, List.reverse_eq_nil_iff, List.map_eq_nil_iff, padDigits,
      List.range_eq_nil]
    omega)]
  rw [← List.map_reverse,
    parseDigits_map _ (fun d hd => padDigits_lt e m d (List.mem_reverse.1 hd))]
  simp [ofDigits_padDigits]

/-- Digit characters are not the decimal point. -/
lemma notDot_digitChar : ∀ d < 10, notDot (digitChar d) = true := by decide

/-- Every character of a rendered natural number is a digit, hence not a dot. -/
lemma natToStrL_notDot (n : Nat) : ∀ c ∈ natToStrL n, notDot c = true := by
  intro c hc
  unfold natToStrL at hc
  by_cases h : n = 0
  · rw [if_pos h] at hc
    simp at hc
    subst hc
    rfl
  · rw [if_neg h, natDigitsRev_eq n n (Nat.le_refl n)] at hc
    obtain ⟨d, hd, rfl⟩ := List.mem_map.1 (List.mem_reverse.1 hc)
    exact notDot_digitChar d (Nat.digits_lt_base (by norm_num) hd)

/-- Splitting a character list at the first failing position. -/
lemma takeWhile_append_of (p : Char → Bool) (xs : List Char) (y : Char) (ys : List Char)
    (hxs : ∀ c ∈ xs, p c = true) (hy : p y = false) :
    (xs ++ y :: ys).takeWhile p = xs ∧ (xs ++ y :: ys).dropWhile p = y :: ys := by
  induction xs with
  | nil => simp [List.takeWhile_cons, List.dropWhile_cons, hy]
  | cons a xs ih =>
    have ha : p a = true := hxs a (by simp)
    have hrec := ih (fun c hc => hxs c (by simp [hc]))
    simp [List.takeWhile_cons, List.dropWhile_cons, ha, hrec.1, hrec.2]

/-- For a decimal value, the exponent `decExp` found by the scan indeed makes
`q·10^e` integral. -/
lemma decExp_spec {q : ℚ} (h : IsDecimal q) :
    (10 : ℤ) ^ (decExp q) * q.num % (q.den : ℤ) = 0 := by
  obtain ⟨e, he, hmod⟩ := h
  unfold decExp
  cases hfind : (List.range 18).find?
      (fun e => (10 : ℤ) ^ e * q.num % (q.den : ℤ) == 0) with
  | none =>
    exfalso
    have hnone := List.find?_eq_none.1 hfind e (List.mem_range.2 he)
    simp only [beq_iff_eq] at hnone
    exact hnone hmod
  | some a =>
    have := List.find?_some hfind
    simp only [beq_iff_eq] at this
    simpa [hfind] using this

/-- Integrality at one exponent propagates to any larger exponent. -/
lemma dec_dvd_of_le {q : ℚ} {e₀ e : Nat} (h : (10 : ℤ) ^ e₀ * q.num % (q.den : ℤ) = 0)
    (hle : e₀ ≤ e) : (q.den : ℤ) ∣ (10 : ℤ) ^ e * q.num := by
  have hdvd : (q.den : ℤ) ∣ (10 : ℤ) ^ e₀ * q.num := Int.dvd_of_emod_eq_zero h
  have hsplit : (10 : ℤ) ^ e * q.num = (10 : ℤ) ^ (e - e₀) * ((10 : ℤ) ^ e₀ * q.num) := by
    rw [← mul_assoc, ← pow_add]
    congr 2
    omega
  rw [hsplit]
  exact Dvd.dvd.mul_left hdvd _

/-- Round trip: parsing the float rendering of a non-negative decimal value
recovers the value exactly. -/
lemma parseDec_floatStr {q : ℚ} (h0 : 0 ≤ q) (hd : IsDecimal q) :
    parseDec (floatStr q) = some q := by
  have hdvd : (q.den : ℤ) ∣ (10 : ℤ) ^ (max (decExp q) 1) * q.num :=
    dec_dvd_of_le (decExp_spec hd) (le_max_left _ _)
  have hden0 : ((q.den : ℤ)) ≠ 0 := Int.natCast_ne_zero.2 (Rat.den_ne_zero q)
  set E := max (decExp q) 1 with hE
  have hE1 : 1 ≤ E := le_max_right _ _
  set n : ℤ := (10 : ℤ) ^ E * q.num / (q.den : ℤ) with hn
  obtain ⟨k, hk⟩ := hdvd
  have hnk : n = k := by
    rw [hn, hk]
    exact Int.mul_ediv_cancel_left k hden0
  have hdenQ : ((q.den : ℚ)) ≠ 0 := by exact_mod_cast hden0
  have hqden : q * (q.den : ℚ) = (q.num : ℚ) := by
    nth_rewrite 1 [← Rat.num_div_den q]
    exact div_mul_cancel₀ _ hdenQ
  have hcast : (n : ℚ) = q * (10 : ℚ) ^ E := by
    have hkq : (10 : ℚ) ^ E * (q.num : ℚ) = (q.den : ℚ) * (k : ℚ) := by
      have := congrArg (fun z : ℤ => (z : ℚ)) hk
      push_cast at this
      exact this
    have hmain : (q.den : ℚ) * (k : ℚ) = (q.den : ℚ) * (q * (10 : ℚ) ^ E) := by
      rw [← hkq, ← hqden]
      ring
    rw [hnk]
    exact mul_left_cancel₀ hdenQ hmain
  have hnum0 : 0 ≤ q.num := Rat.num_nonneg.2 h0
  have hn0 : 0 ≤ n := by
    rw [hn]
    exact Int.ediv_nonneg (mul_nonneg (pow_nonneg (by norm_num) E) hnum0)
      (Int.natCast_nonneg _)
  have habs : ((n.natAbs : ℚ)) = q * (10 : ℚ) ^ E := by
    rw [← hcast, ← Int.cast_natCast (R := ℚ), Int.natAbs_of_nonneg hn0]
  have hflo : floatStr q = String.mk (natToStrL (n.natAbs / 10 ^ E) ++
      '.' :: ((padDigits E (n.natAbs % 10 ^ E)).map digitChar).reverse) := by
    simp only [floatStr]
    rw [← hE, ← hn, if_neg (not_lt.2 hn0)]
    rfl
  have hsplit := takeWhile_append_of notDot (natToStrL (n.natAbs / 10 ^ E)) '.'
    (((padDigits E (n.natAbs % 10 ^ E)).map digitChar).reverse)
    (natToStrL_notDot _) rfl
  rw [hflo]
  unfold parseDec
  dsimp only
  rw [hsplit.1, hsplit.2, parseNatL_natToStrL]
  dsimp only
  rw [parseNatL_pad E _ hE1]
  dsimp only
  rw [Nat.mod_mod_of_dvd _ dvd_rfl]
  have hlen : ((((padDigits E (n.natAbs % 10 ^ E)).map digitChar).reverse).length) = E := by
    simp [padDigits]
  rw [hlen]
  have hdm : (10 : ℚ) ^ E * ((n.natAbs / 10 ^ E : Nat) : ℚ) +
      ((n.natAbs % 10 ^ E : Nat) : ℚ) = q * (10 : ℚ) ^ E := by
    rw [← habs]
    exact_mod_cast congrArg (fun z : Nat => (z : ℚ)) (Nat.div_add_mod n.natAbs (10 ^ E))
  have h10 : ((10 : ℚ)) ^ E ≠ 0 := pow_ne_zero _ (by norm_num)
  rw [Option.some.injEq]
  field_simp
  linarith [hdm]

/-- C5 (amended): exporting N orders yields N+1 lines — a header plus one row
per order with cells {order id, customer, customer type, "; "-joined
"name x qty" item list, total, date} — and parsing a row's id, customer and
total cells recovers the ledger values exactly; however the total cell is the
Python float rendering of the value (minimal digits), not a two-decimal-place
rendering. -/
theorem C5_export_csv_roundtrip (orders : List OrderHistory)
    (h : ∀ o ∈ orders, 0 ≤ o.total_amount ∧ IsDecimal o.total_amount) :
    (export_csv_lines orders).length = orders.length + 1 ∧
    export_csv_lines orders =
      csv_header ::
        orders.map (fun o => String.intercalate "," ((csv_fields o).map csv_escape)) ∧
    (∀ o ∈ orders,
      parseNatL ((csv_fields o).getD 0 "").data = some o.order_id ∧
      (csv_fields o).getD 1 "" = o.customer_name ∧
      parseDec ((csv_fields o).getD 4 "") = some o.total_amount) := by
  refine ⟨by simp [export_csv_lines], rfl, ?_⟩
  intro o ho
  refine ⟨?_, rfl, ?_⟩
  · show parseNatL (String.mk (natToStrL o.order_id)).data = some o.order_id
    exact parseNatL_natToStrL o.order_id
  · show parseDec (floatStr o.total_amount) = some o.total_amount
    exact parseDec_floatStr (h o ho).1 (h o ho).2

/-- Witness for C5 at the one-order ledger [c5_order] (total 70.20). -/
theorem C5_witness :
    (0 ≤ c5_order.total_amount ∧ IsDecimal c5_order.total_amount) ∧
    (export_csv_lines [c5_order]).length = 1 + 1 ∧
    parseDec ((csv_fields c5_order).getD 4 "") = some c5_order.total_amount := by
  have hh : ∀ o ∈ [c5_order], 0 ≤ o.total_amount ∧ IsDecimal o.total_amount := by
    intro o ho
    rw [List.mem_singleton.1 ho]
    constructor
    · show (0 : ℚ) ≤ mkRat 702 10
      rw [Rat.mkRat_eq_div]
      norm_num
    · exact ⟨1, by norm_num, by decide⟩
  exact ⟨hh c5_order (by simp),
    (C5_export_csv_roundtrip [c5_order] hh).1,
    ((C5_export_csv_roundtrip [c5_order] hh).2.2 c5_order (by simp)).2.2⟩

/-- Counterexample for C5 as stated: the total cell for the 70.20 order is
rendered "70.2" by the default float formatting, while the two-decimal
rendering required by the claim is "70.20". -/
theorem C5_counterexample :
    (csv_fields c5_order).getD 4 "" = "70.2" ∧
    twoDecStr c5_order.total_amount = "70.20" ∧
    ("70.2" : String) ≠ "70.20" := by decide
